import Mathlib

/-!
Verification development for the `file_converter` service.

The definitions below are a shallow embedding of the TypeScript sources:
`src/services/taskManager.ts` (the in-memory task store) and the
`ConversionService` (orchestrator, legacy-office normalizer, strategy
resolver, source preparer and converter invokers).  Filesystem and
subprocess effects are modelled by an environment record `Env` fixing the
outcome of every external operation of one pipeline run, and by a trace of
`Event`s recording the external actions the pipeline performs, in order.
String primitives mirror the JavaScript ones on the ASCII range.
-/

namespace FileConverter

/-! ## JavaScript string primitives (ASCII scope) -/

/-- JS `String.prototype.toLowerCase`, character-wise (ASCII case mapping). -/
def jsToLower (s : String) : String :=
  String.mk (s.data.map Char.toLower)

/-- Is `c` a whitespace character for JS `trim` (ASCII subset)? -/
def isJsWs (c : Char) : Bool :=
  c = ' ' || c = '\t' || c = '\n' || c = '\r' || c = '\x0b' || c = '\x0c'

/-- JS `String.prototype.trim` (ASCII whitespace). -/
def jsTrim (s : String) : String :=
  String.mk (((s.data.dropWhile isJsWs).reverse.dropWhile isJsWs).reverse)

/-- JS `format.replace(/^\./, '')`: drop one leading dot when present. -/
def stripLeadingDot (s : String) : String :=
  match s.data with
  | '.' :: rest => String.mk rest
  | _ => s

/-- JS `String.prototype.endsWith`. -/
def jsEndsWith (s suffix : String) : Bool :=
  suffix.data.isSuffixOf s.data

/-- Node `path.join` restricted to two segments (POSIX separator). -/
def pathJoin (a b : String) : String :=
  a ++ "/" ++ b

/-- Index of the last dot in a character list, when any. -/
def lastDotIdx (cs : List Char) : Option Nat :=
  ((List.range cs.length).filter (fun i => cs.getD i ' ' = '.')).getLast?

/-- Node `path.parse(filename).name` for a plain base name: the stem before
the last extension; a dot in first position (dotfile) or the special name
`..` starts no extension. -/
def parseName (filename : String) : String :=
  if filename = ".." then filename
  else
    match lastDotIdx filename.data with
    | none => filename
    | some 0 => filename
    | some i => String.mk (filename.data.take i)

/-! ## Task data model (`src/types/task.ts`) -/

/-- Task lifecycle states. -/
inductive TaskStatus where
  | pending
  | processing
  | completed
  | failed
  deriving DecidableEq, Repr

/-- A conversion task record (`ConversionTask`).  Timestamps are abstract
clock readings (`Nat`). -/
structure Task where
  id : String
  sourcePath : String
  sourceRelativePath : String
  sourceFormat : String
  targetFormat : String
  sourceFilename : String
  status : TaskStatus
  createdAt : Nat
  updatedAt : Nat
  outputPath : Option String := none
  error : Option String := none
  deriving DecidableEq, Repr

/-! ## Task store (`src/services/taskManager.ts`) -/

/-- Payload accepted by `TaskManager.createTask`. -/
structure CreateTaskPayload where
  id : String
  sourcePath : String
  sourceRelativePath : String
  sourceFormat : String
  targetFormat : String
  sourceFilename : String
  deriving DecidableEq, Repr

/-- The in-memory registry: a partial map from identifiers to records. -/
def TaskStore : Type := String → Option Task

/-- The empty registry. -/
def emptyStore : TaskStore := fun _ => none

/-- Point update of the registry (JS `Map.set`). -/
def storeSet (s : TaskStore) (id : String) (t : Task) : TaskStore :=
  fun k => if k = id then some t else s k

/-- `TaskManager.createTask`: builds a record with status `pending` and
stores it under `payload.id`, unconditionally (`Map.set`), returning it. -/
def createTask (s : TaskStore) (payload : CreateTaskPayload) (now : Nat) :
    Task × TaskStore :=
  let task : Task :=
    { id := payload.id
      sourcePath := payload.sourcePath
      sourceRelativePath := payload.sourceRelativePath
      sourceFormat := payload.sourceFormat
      targetFormat := payload.targetFormat
      sourceFilename := payload.sourceFilename
      status := TaskStatus.pending
      createdAt := now
      updatedAt := now }
  (task, storeSet s payload.id task)

/-- TS `Partial<ConversionTask>`: each field optionally present.  A `none`
field is absent from the object literal and is not spread. -/
structure TaskUpdates where
  id : Option String := none
  sourcePath : Option String := none
  sourceRelativePath : Option String := none
  sourceFormat : Option String := none
  targetFormat : Option String := none
  sourceFilename : Option String := none
  status : Option TaskStatus := none
  createdAt : Option Nat := none
  updatedAt : Option Nat := none
  outputPath : Option String := none
  error : Option String := none
  deriving DecidableEq, Repr

/-- Spread semantics for a field that is optional in the record itself:
a value present in `updates` wins, else the record keeps its own. -/
def mergeOpt {α : Type} (u : Option α) (t : Option α) : Option α :=
  match u with
  | some v => some v
  | none => t

/-- The object literal `{ ...task, ...updates, status, updatedAt: new Date() }`:
fields present in `updates` win over `task`, then `status` and `updatedAt`
are written last and win over both. -/
def mergeTask (task : Task) (updates : TaskUpdates) (status : TaskStatus)
    (now : Nat) : Task :=
  { id := updates.id.getD task.id
    sourcePath := updates.sourcePath.getD task.sourcePath
    sourceRelativePath := updates.sourceRelativePath.getD task.sourceRelativePath
    sourceFormat := updates.sourceFormat.getD task.sourceFormat
    targetFormat := updates.targetFormat.getD task.targetFormat
    sourceFilename := updates.sourceFilename.getD task.sourceFilename
    status := status
    createdAt := updates.createdAt.getD task.createdAt
    updatedAt := now
    outputPath := mergeOpt updates.outputPath task.outputPath
    error := mergeOpt updates.error task.error }

/-- `TaskManager.updateStatus`: no-op returning `none` on a lookup miss,
otherwise replaces the record with the merge and returns it. -/
def updateStatus (s : TaskStore) (id : String) (status : TaskStatus)
    (updates : TaskUpdates) (now : Nat) : Option Task × TaskStore :=
  match s id with
  | none => (none, s)
  | some task =>
      let nextTask := mergeTask task updates status now
      (some nextTask, storeSet s id nextTask)

/-- `TaskManager.attachResult`. -/
def attachResult (s : TaskStore) (id : String) (outputPath : String)
    (now : Nat) : Option Task × TaskStore :=
  updateStatus s id TaskStatus.completed { outputPath := some outputPath } now

/-- `TaskManager.attachError`. -/
def attachError (s : TaskStore) (id : String) (error : String)
    (now : Nat) : Option Task × TaskStore :=
  updateStatus s id TaskStatus.failed { error := some error } now

/-- `TaskManager.setProcessing`. -/
def setProcessing (s : TaskStore) (id : String) (now : Nat) :
    Option Task × TaskStore :=
  updateStatus s id TaskStatus.processing {} now

/-- `TaskManager.getTask`. -/
def getTask (s : TaskStore) (id : String) : Option Task :=
  s id

/-! ## Conversion service: pure normalizations (`ConversionService`) -/

/-- `ConversionService.normalizeExtension`: strip one leading dot, lower-case,
then map the markdown and text families to their canonical extensions. -/
def normalizeExtension (format : String) : String :=
  let normalized := jsToLower (stripLeadingDot format)
  if normalized = "markdown" ∨ normalized = "md" then "md"
  else if normalized = "text" ∨ normalized = "txt" ∨ normalized = "plain" then "txt"
  else normalized

/-- `ConversionService.buildOutputFilename`. -/
def buildOutputFilename (originalFilename taskId targetFormat : String) : String :=
  parseName originalFilename ++ "-" ++ taskId ++ "." ++ normalizeExtension targetFormat

/-- `ConversionService.buildIntermediateMarkdownPath`. -/
def buildIntermediateMarkdownPath (outputDirectory originalFilename taskId : String) : String :=
  pathJoin outputDirectory (parseName originalFilename ++ "-" ++ taskId ++ "-intermediate.md")

/-- `ConversionService.normalizeFormatForPandoc`. -/
def normalizeFormatForPandoc (format : String) : String :=
  let normalized := jsToLower (jsTrim format)
  if normalized = "markdown" ∨ normalized = "md" then "markdown"
  else if normalized = "text" ∨ normalized = "txt" ∨ normalized = "plain" then "plain"
  else if normalized = "htm" then "html"
  else normalized

/-- `ConversionService.getLegacyOfficeMapping`. -/
def getLegacyOfficeMapping (format : String) : Option String :=
  let normalized := jsToLower (jsTrim format)
  if normalized = "doc" then some "docx"
  else if normalized = "ppt" then some "pptx"
  else if normalized = "xls" then some "xlsx"
  else none

/-- `ConversionService.shouldUseMarkitdown`: the markdown shortcut is
hard-disabled (`return false` behind the commented-out check). -/
def shouldUseMarkitdown (_targetFormat : String) : Bool :=
  false

/-- The three conversion strategies. -/
inductive ConversionStrategy where
  | simulation
  | markitdown
  | pandoc
  deriving DecidableEq, Repr

/-- `ConversionService.resolveStrategy`; `testMode` embeds
`process.env.NODE_ENV === 'test'`. -/
def resolveStrategy (testMode : Bool) (task : Task) : ConversionStrategy :=
  if testMode then ConversionStrategy.simulation
  else if shouldUseMarkitdown task.targetFormat then ConversionStrategy.markitdown
  else ConversionStrategy.pandoc

/-- `MarkitdownService.getExtensionHint` needs `path.extname`. -/
def extname (p : String) : String :=
  match lastDotIdx p.data with
  | none => ""
  | some 0 => ""
  | some i => String.mk (p.data.drop i)

/-- `MarkitdownService.getExtensionHint`: declared format if its normalized
form is non-empty, else the path's extension, else nothing. -/
def getExtensionHint (sourcePath : String) (sourceFormat : Option String) : Option String :=
  let fromExt : Option String :=
    let ext := extname sourcePath
    if ext ≠ "" then some (jsToLower (stripLeadingDot ext)) else none
  match sourceFormat with
  | some fmt =>
      if fmt ≠ "" then
        let normalized := jsToLower (stripLeadingDot (jsTrim fmt))
        if normalized ≠ "" then some normalized else fromExt
      else fromExt
  | none => fromExt

/-! ## Conversion service: effectful pipeline

External effects are modelled by an `Env` record fixing, for one run of
`processTask`, the outcome of each external operation, and by a trace of
`Event`s listing the external actions performed, in order. -/

/-- Observable external actions of one pipeline run. -/
inductive Event where
  | mkScratch (dir : String)
  | spawnSoffice (exe : String) (args : List String)
  | removeDir (dir : String)
  | writeFile (path : String)
  | deleteFile (path : String)
  | copyFile (src dst : String)
  | spawnPandoc (exe : String) (args : List String)
  | spawnMarkitdown (exe : String) (args : List String)
  deriving DecidableEq, Repr

/-- Outcome of spawning an external process: spawn failed with `ENOENT`,
spawn failed otherwise, or the process ran and exited with a code, having
produced the given standard-error text. -/
inductive ProcResult where
  | notFound
  | spawnError (msg : String)
  | exited (code : Int) (stderr : String)
  deriving DecidableEq, Repr

/-- Fixed outcomes of the external operations of one `processTask` run. -/
structure Env where
  testMode : Bool
  sofficePath : Option String
  sofficeAvailability : Option Bool
  sofficeAccessOk : Bool
  scratchDir : String
  sofficeResult : ProcResult
  convertedFiles : List String
  pdfExtract : Except String String
  pandocResult : ProcResult
  markitdownResult : ProcResult
  copySucceeds : Bool
  fallbackRead : Except String String
  deriving Repr

/-- Service construction parameters relevant to the pipeline. -/
structure ServiceConfig where
  outputDirectory : String
  pandocPath : String
  markitdownPath : String
  deriving Repr

/-- `ConversionService.isSofficeAvailable`: cached answer when present, else
the access check's result (which the code then caches). -/
def isSofficeAvailable (env : Env) : Bool :=
  env.sofficeAvailability.getD env.sofficeAccessOk

/-- `ConversionService.spawnLibreOffice`: promise outcome from the process
outcome. -/
def sofficeOutcome (executable : String) (r : ProcResult) : Except String Unit :=
  match r with
  | ProcResult.notFound =>
      Except.error ("LibreOffice executable not found at \"" ++ executable ++ "\".")
  | ProcResult.spawnError msg => Except.error msg
  | ProcResult.exited code stderr =>
      if code = 0 then Except.ok ()
      else if jsTrim stderr ≠ "" then Except.error (jsTrim stderr)
      else Except.error ("LibreOffice exited with code " ++ toString code)

/-- A prepared source: working path, effective format, and the external
actions its release (cleanup) performs when invoked. -/
structure PreparedSource where
  sourcePath : String
  sourceFormat : String
  cleanupEvents : List Event
  deriving DecidableEq, Repr

/-- `ConversionService.preparePassThroughSource`. -/
def preparePassThroughSource (task : Task) : PreparedSource :=
  { sourcePath := task.sourcePath
    sourceFormat := task.sourceFormat
    cleanupEvents := [] }

/-- `ConversionService.prepareLegacyOfficeSource`: result plus the external
actions performed during preparation itself (cleanup actions are carried in
the prepared source when preparation succeeds). -/
def prepareLegacyOfficeSource (env : Env) (task : Task) :
    Except String PreparedSource × List Event :=
  match getLegacyOfficeMapping task.sourceFormat with
  | none => (Except.ok (preparePassThroughSource task), [])
  | some targetExtension =>
    match env.sofficePath with
    | none => (Except.ok (preparePassThroughSource task), [])
    | some sofficePath =>
      if isSofficeAvailable env = false then
        (Except.ok (preparePassThroughSource task), [])
      else
        let tempDir := env.scratchDir
        let args := ["--headless", "--convert-to", targetExtension,
                     task.sourcePath, "--outdir", tempDir]
        match sofficeOutcome sofficePath env.sofficeResult with
        | Except.error e =>
            (Except.error e,
             [Event.mkScratch tempDir, Event.spawnSoffice sofficePath args,
              Event.removeDir tempDir])
        | Except.ok _ =>
          let lowerSuffix := "." ++ targetExtension
          match env.convertedFiles.find? (fun f => jsEndsWith (jsToLower f) lowerSuffix) with
          | none =>
              (Except.error ("LibreOffice conversion completed without producing a \"" ++
                  targetExtension ++ "\" output."),
               [Event.mkScratch tempDir, Event.spawnSoffice sofficePath args,
                Event.removeDir tempDir])
          | some convertedFile =>
              (Except.ok
                { sourcePath := pathJoin tempDir convertedFile
                  sourceFormat := targetExtension
                  cleanupEvents := [Event.removeDir tempDir] },
               [Event.mkScratch tempDir, Event.spawnSoffice sofficePath args])

/-- `ConversionService.prepareSourceForPandoc`: pass-through unless the
declared source format lower-cases to `pdf`; otherwise extract the PDF text
and write the intermediate markdown file, whose release deletes it. -/
def prepareSourceForPandoc (env : Env) (outputDirectory : String) (task : Task) :
    Except String PreparedSource × List Event :=
  if jsToLower task.sourceFormat ≠ "pdf" then
    (Except.ok (preparePassThroughSource task), [])
  else
    let intermediatePath :=
      buildIntermediateMarkdownPath outputDirectory task.sourceFilename task.id
    match env.pdfExtract with
    | Except.error e => (Except.error e, [])
    | Except.ok _content =>
        (Except.ok
          { sourcePath := intermediatePath
            sourceFormat := "markdown"
            cleanupEvents := [Event.deleteFile intermediatePath] },
         [Event.writeFile intermediatePath])

/-- `ConversionService.prepareSource`: per-strategy staging. -/
def prepareSource (env : Env) (outputDirectory : String) (task : Task)
    (strategy : ConversionStrategy) : Except String PreparedSource × List Event :=
  match strategy with
  | ConversionStrategy.pandoc => prepareSourceForPandoc env outputDirectory task
  | _ => (Except.ok (preparePassThroughSource task), [])

/-- `ConversionService.simulateConversion`: copy, with a UTF-8 read/write
round trip as fallback when the copy fails. -/
def simulateConversion (env : Env) (sourcePath outputPath : String) :
    Except String Unit × List Event :=
  if env.copySucceeds then
    (Except.ok (), [Event.copyFile sourcePath outputPath])
  else
    match env.fallbackRead with
    | Except.ok _content =>
        (Except.ok (), [Event.copyFile sourcePath outputPath, Event.writeFile outputPath])
    | Except.error e =>
        (Except.error e, [Event.copyFile sourcePath outputPath])

/-- `MarkitdownService.convert`. -/
def markitdownConvert (env : Env) (executablePath sourcePath outputPath : String)
    (sourceFormat : Option String) : Except String Unit × List Event :=
  let baseArgs := [sourcePath, "-o", outputPath]
  let args :=
    match getExtensionHint sourcePath sourceFormat with
    | some hint => baseArgs ++ ["--extension", hint]
    | none => baseArgs
  let events := [Event.spawnMarkitdown executablePath args]
  match env.markitdownResult with
  | ProcResult.notFound =>
      (Except.error ("Markitdown executable not found at \"" ++ executablePath ++
         "\". Install markitdown or set MARKITDOWN_PATH to the executable location."),
       events)
  | ProcResult.spawnError msg => (Except.error msg, events)
  | ProcResult.exited code stderr =>
      if code = 0 then (Except.ok (), events ++ [Event.writeFile outputPath])
      else if stderr ≠ "" then (Except.error stderr, events)
      else (Except.error ("markitdown exited with code " ++ toString code), events)

/-- `ConversionService.runPandoc`. -/
def runPandoc (cfg : ServiceConfig) (env : Env) (task : Task)
    (outputPath sourcePath sourceFormat : String) : Except String Unit × List Event :=
  let args := ["--from", normalizeFormatForPandoc sourceFormat,
               "--to", normalizeFormatForPandoc task.targetFormat,
               sourcePath, "--output", outputPath]
  let events := [Event.spawnPandoc cfg.pandocPath args]
  match env.pandocResult with
  | ProcResult.notFound =>
      (Except.error ("Failed to launch Pandoc at \"" ++ cfg.pandocPath ++
         "\". Ensure Pandoc is installed on the server and the executable path is reachable (set PANDOC_PATH if necessary)."),
       events)
  | ProcResult.spawnError msg => (Except.error msg, events)
  | ProcResult.exited code stderr =>
      if code = 0 then (Except.ok (), events ++ [Event.writeFile outputPath])
      else if stderr ≠ "" then (Except.error stderr, events)
      else (Except.error ("Pandoc exited with code " ++ toString code), events)

/-- Dispatch of the selected strategy's invoker (the inner `if/else` chain of
`processTask`). -/
def runStrategyStage (cfg : ServiceConfig) (env : Env) (task : Task)
    (strategy : ConversionStrategy) (prep : PreparedSource) (outputPath : String) :
    Except String Unit × List Event :=
  match strategy with
  | ConversionStrategy.simulation => simulateConversion env prep.sourcePath outputPath
  | ConversionStrategy.markitdown =>
      markitdownConvert env cfg.markitdownPath prep.sourcePath outputPath
        (some prep.sourceFormat)
  | ConversionStrategy.pandoc =>
      runPandoc cfg env task outputPath prep.sourcePath prep.sourceFormat

/-- The body of `processTask`'s `try` block: legacy normalization, strategy
resolution, source preparation, invocation, with the preparer's release
nested inside the normalizer's release (both run on every exit path). -/
def runPipeline (cfg : ServiceConfig) (env : Env) (task : Task)
    (outputPath : String) : Except String Unit × List Event :=
  match prepareLegacyOfficeSource env task with
  | (Except.error e, evs) => (Except.error e, evs)
  | (Except.ok legacyPrep, evs1) =>
    let effectiveTask : Task :=
      { task with
          sourcePath := legacyPrep.sourcePath
          sourceFormat := legacyPrep.sourceFormat }
    let strategy := resolveStrategy env.testMode effectiveTask
    match prepareSource env cfg.outputDirectory effectiveTask strategy with
    | (Except.error e, evs2) =>
        (Except.error e, evs1 ++ evs2 ++ legacyPrep.cleanupEvents)
    | (Except.ok prep, evs2) =>
        let staged := runStrategyStage cfg env effectiveTask strategy prep outputPath
        (staged.1,
         evs1 ++ evs2 ++ staged.2 ++ prep.cleanupEvents ++ legacyPrep.cleanupEvents)

/-- The task-store calls a pipeline run performs, in order. -/
inductive StoreOp where
  | opSetProcessing (id : String)
  | opAttachResult (id : String) (outputPath : String)
  | opAttachError (id : String) (error : String)
  deriving DecidableEq, Repr

/-- `ConversionService.processTask`: mark processing, run the pipeline, then
attach exactly one of result or error; returns the store calls made and the
trace of external actions. -/
def processTask (cfg : ServiceConfig) (env : Env) (task : Task) :
    List StoreOp × List Event :=
  let outputFilename := buildOutputFilename task.sourceFilename task.id task.targetFormat
  let outputPath := pathJoin cfg.outputDirectory outputFilename
  match runPipeline cfg env task outputPath with
  | (Except.ok _, evs) =>
      ([StoreOp.opSetProcessing task.id, StoreOp.opAttachResult task.id outputPath], evs)
  | (Except.error e, evs) =>
      ([StoreOp.opSetProcessing task.id, StoreOp.opAttachError task.id e], evs)

/-- Interpretation of one store call against the task store. -/
def applyOp (now : Nat) (s : TaskStore) : StoreOp → TaskStore
  | StoreOp.opSetProcessing id => (setProcessing s id now).2
  | StoreOp.opAttachResult id p => (attachResult s id p now).2
  | StoreOp.opAttachError id e => (attachError s id e now).2

/-- Interpretation of a sequence of store calls. -/
def applyOps (now : Nat) (s : TaskStore) (ops : List StoreOp) : TaskStore :=
  ops.foldl (applyOp now) s

/-- The status a store call writes. -/
def opStatus : StoreOp → TaskStatus
  | StoreOp.opSetProcessing _ => TaskStatus.processing
  | StoreOp.opAttachResult _ _ => TaskStatus.completed
  | StoreOp.opAttachError _ _ => TaskStatus.failed

/-- The legal edges of the task state machine. -/
def allowedEdge : TaskStatus → TaskStatus → Bool
  | TaskStatus.pending, TaskStatus.processing => true
  | TaskStatus.processing, TaskStatus.completed => true
  | TaskStatus.processing, TaskStatus.failed => true
  | _, _ => false

/-- File existence after a trace, for a path assumed absent initially:
writes and copy targets create it, deletion removes it. -/
def existsAfter (p : String) (trace : List Event) : Bool :=
  trace.foldl
    (fun ex ev =>
      match ev with
      | Event.writeFile q => if q = p then true else ex
      | Event.copyFile _ q => if q = p then true else ex
      | Event.deleteFile q => if q = p then false else ex
      | _ => ex)
    false

/-! ## Predicates used by the claims -/

/-- The coupling of `outputPath` and `error` with the status: exactly one of
the three cases holds. -/
def taskConsistent (t : Task) : Prop :=
  (t.status = TaskStatus.completed ∧ t.outputPath ≠ none ∧ t.error = none) ∨
  (t.status = TaskStatus.failed ∧ t.error ≠ none ∧ t.outputPath = none) ∨
  ((t.status = TaskStatus.pending ∨ t.status = TaskStatus.processing) ∧
    t.outputPath = none ∧ t.error = none)

/-- Consistency lifted to a possibly-absent record. -/
def optTaskConsistent : Option Task → Prop
  | none => True
  | some t => taskConsistent t

/-- Does this event spawn the shortcut or the primary converter? -/
def isMainConverterSpawn : Event → Bool
  | Event.spawnPandoc _ _ => true
  | Event.spawnMarkitdown _ _ => true
  | _ => false

/-- No event of the list spawns the shortcut or primary converter. -/
def noConverterSpawn (l : List Event) : Prop :=
  ∀ ev ∈ l, isMainConverterSpawn ev = false

/-! ## Claim-worded definitions (for refutations)

These two definitions follow the wording of claims C6 and C7, not the
source; they exist only to be compared with the source-derived
normalizations. -/

/-- Target-extension normalization exactly as claim C6 words it: the target
format itself is matched case-insensitively against the two families, and
otherwise the lower-cased target format is used; no dot handling. -/
def claimedNormalizeExtension (format : String) : String :=
  let f := jsToLower format
  if f = "markdown" ∨ f = "md" then "md"
  else if f = "text" ∨ f = "txt" ∨ f = "plain" then "txt"
  else f

/-- Format-name normalization exactly as claim C7 words it: the literal
table, everything else passed through unchanged. -/
def claimedNormalizeFormat (format : String) : String :=
  if format = "markdown" ∨ format = "md" then "markdown"
  else if format = "text" ∨ format = "txt" ∨ format = "plain" then "plain"
  else if format = "htm" then "html"
  else format

/-! ## Concrete fixtures for witnesses and counterexamples -/

/-- A sample creation payload. -/
def samplePayload : CreateTaskPayload :=
  { id := "t"
    sourcePath := "up/a.md"
    sourceRelativePath := "a.md"
    sourceFormat := "md"
    targetFormat := "html"
    sourceFilename := "a.md" }

/-- A second payload under the same id. -/
def samplePayloadB : CreateTaskPayload :=
  { id := "t"
    sourcePath := "up/b.md"
    sourceRelativePath := "b.md"
    sourceFormat := "md"
    targetFormat := "html"
    sourceFilename := "b.md" }

/-- A sample service configuration. -/
def sampleCfg : ServiceConfig :=
  { outputDirectory := "out"
    pandocPath := "pandoc"
    markitdownPath := "markitdown" }

/-- A pending task over a PDF source. -/
def samplePdfTask : Task :=
  { id := "tid"
    sourcePath := "up/in.pdf"
    sourceRelativePath := "in.pdf"
    sourceFormat := "pdf"
    targetFormat := "markdown"
    sourceFilename := "in.pdf"
    status := TaskStatus.pending
    createdAt := 0
    updatedAt := 0 }

/-- A pending task over a legacy `doc` source. -/
def sampleDocTask : Task :=
  { id := "tid"
    sourcePath := "up/in.doc"
    sourceRelativePath := "in.doc"
    sourceFormat := "doc"
    targetFormat := "markdown"
    sourceFilename := "in.doc"
    status := TaskStatus.pending
    createdAt := 0
    updatedAt := 0 }

/-- An environment where every external operation succeeds, outside test
mode, with the office converter configured and present. -/
def sampleEnv : Env :=
  { testMode := false
    sofficePath := some "soffice"
    sofficeAvailability := none
    sofficeAccessOk := true
    scratchDir := "out/soffice-x"
    sofficeResult := ProcResult.exited 0 ""
    convertedFiles := ["in.docx"]
    pdfExtract := Except.ok "text"
    pandocResult := ProcResult.exited 0 ""
    markitdownResult := ProcResult.exited 0 ""
    copySucceeds := true
    fallbackRead := Except.ok "content" }

/-- The same environment under test mode. -/
def sampleEnvTest : Env :=
  { sampleEnv with testMode := true }

/-- The same environment with the office converter exiting non-zero. -/
def sampleEnvSofficeFail : Env :=
  { sampleEnv with sofficeResult := ProcResult.exited 1 "boom" }

/-! ## Theorems -/

/-- C9: outside test mode the strategy resolver returns the pandoc strategy
for every task, whatever the target format, because the markitdown enabling
predicate is constantly false. -/
theorem resolveStrategy_outside_test_pandoc (task : Task) (targetFormat : String) :
    resolveStrategy false task = ConversionStrategy.pandoc ∧
    shouldUseMarkitdown targetFormat = false :=
  ⟨rfl, rfl⟩

/-- C3 counterexample: creating a second record under the already-used id
`t` succeeds and silently replaces the first record (the stored
`sourceFilename` becomes the second payload's) instead of failing. -/
theorem createTask_duplicate_id_replaces :
    ((createTask (createTask emptyStore samplePayload 0).2 samplePayloadB 1).2 "t" =
      some (createTask (createTask emptyStore samplePayload 0).2 samplePayloadB 1).1) ∧
    (createTask (createTask emptyStore samplePayload 0).2 samplePayloadB 1).1.sourceFilename
      = "b.md" ∧
    (createTask emptyStore samplePayload 0).1.sourceFilename = "a.md" ∧
    ("b.md" : String) ≠ "a.md" :=
  ⟨rfl, rfl, rfl, by decide⟩

/-- C3 (amended): create always succeeds: it registers a record with status
pending under the payload's id — silently replacing any existing record with
that id — and leaves every other id unchanged. -/
theorem createTask_registers_pending (s : TaskStore) (p : CreateTaskPayload) (now : Nat) :
    (createTask s p now).1.status = TaskStatus.pending ∧
    (createTask s p now).2 p.id = some (createTask s p now).1 ∧
    ∀ k, k ≠ p.id → (createTask s p now).2 k = s k := by
  refine ⟨rfl, ?_, ?_⟩
  · simp [createTask, storeSet]
  · intro k hk
    simp [createTask, storeSet, hk]

/-- C3 witness: creation leaves an unrelated id unchanged. -/
theorem createTask_registers_pending_witness :
    (createTask emptyStore samplePayload 0).2 "other" = emptyStore "other" :=
  (createTask_registers_pending emptyStore samplePayload 0).2.2 "other" (by decide)

/-- C10: a transition through updateStatus on an existing id replaces the
record by a merge in which every field not named in the supplied updates
keeps its previous value, the status is the given one, updatedAt is
refreshed, and every other id keeps its old record; the conveniences are
definitionally such transitions. -/
theorem updateStatus_frame (s : TaskStore) (id : String) (status : TaskStatus)
    (updates : TaskUpdates) (now : Nat) (task : Task) (h : s id = some task) :
    (updateStatus s id status updates now).1 = some (mergeTask task updates status now) ∧
    (updateStatus s id status updates now).2 id = some (mergeTask task updates status now) ∧
    (mergeTask task updates status now).status = status ∧
    (mergeTask task updates status now).updatedAt = now ∧
    (updates.id = none → (mergeTask task updates status now).id = task.id) ∧
    (updates.sourcePath = none →
      (mergeTask task updates status now).sourcePath = task.sourcePath) ∧
    (updates.sourceRelativePath = none →
      (mergeTask task updates status now).sourceRelativePath = task.sourceRelativePath) ∧
    (updates.sourceFormat = none →
      (mergeTask task updates status now).sourceFormat = task.sourceFormat) ∧
    (updates.targetFormat = none →
      (mergeTask task updates status now).targetFormat = task.targetFormat) ∧
    (updates.sourceFilename = none →
      (mergeTask task updates status now).sourceFilename = task.sourceFilename) ∧
    (updates.createdAt = none →
      (mergeTask task updates status now).createdAt = task.createdAt) ∧
    (updates.outputPath = none →
      (mergeTask task updates status now).outputPath = task.outputPath) ∧
    (updates.error = none → (mergeTask task updates status now).error = task.error) ∧
    (∀ p2, attachResult s id p2 now =
      updateStatus s id TaskStatus.completed { outputPath := some p2 } now) ∧
    (∀ e2, attachError s id e2 now =
      updateStatus s id TaskStatus.failed { error := some e2 } now) ∧
    (setProcessing s id now = updateStatus s id TaskStatus.processing {} now) ∧
    (∀ k, k ≠ id → (updateStatus s id status updates now).2 k = s k) := by
  have hu : updateStatus s id status updates now =
      (some (mergeTask task updates status now),
       storeSet s id (mergeTask task updates status now)) := by
    simp [updateStatus, h]
  refine ⟨by rw [hu], by rw [hu]; simp [storeSet], rfl, rfl,
    ?_, ?_, ?_, ?_, ?_, ?_, ?_, ?_, ?_,
    fun _ => rfl, fun _ => rfl, rfl, ?_⟩
  · intro he; simp [mergeTask, he]
  · intro he; simp [mergeTask, he]
  · intro he; simp [mergeTask, he]
  · intro he; simp [mergeTask, he]
  · intro he; simp [mergeTask, he]
  · intro he; simp [mergeTask, he]
  · intro he; simp [mergeTask, he]
  · intro he; simp [mergeTask, he, mergeOpt]
  · intro he; simp [mergeTask, he, mergeOpt]
  · intro k hk
    rw [hu]
    simp [storeSet, hk]

/-- C10 witness: marking the freshly created sample task as processing
returns the merged record. -/
theorem updateStatus_frame_witness :
    (updateStatus (createTask emptyStore samplePayload 0).2 "t"
        TaskStatus.processing {} 5).1 =
      some (mergeTask (createTask emptyStore samplePayload 0).1 {}
        TaskStatus.processing 5) :=
  (updateStatus_frame (createTask emptyStore samplePayload 0).2 "t"
    TaskStatus.processing {} 5 (createTask emptyStore samplePayload 0).1 rfl).1

/-- C6 counterexample: for target format ".md" the code strips the leading
dot and produces extension "md" (filename "a-t1.md"), while the claim's
normalization yields ".md" and filename "a-t1..md". -/
theorem buildOutputFilename_dot_counterexample :
    buildOutputFilename "a.txt" "t1" ".md" = "a-t1.md" ∧
    parseName "a.txt" ++ "-" ++ "t1" ++ "." ++ claimedNormalizeExtension ".md"
      = "a-t1..md" ∧
    ("a-t1.md" : String) ≠ "a-t1..md" :=
  ⟨rfl, rfl, by decide⟩

/-- C6 (amended): the output filename is stem-taskId.ext, where ext is
obtained from the target format by stripping one leading dot, lower-casing,
and mapping the markdown family to md and the text family to txt, all other
values passing through lower-cased. -/
theorem buildOutputFilename_normalization (originalFilename taskId targetFormat : String) :
    buildOutputFilename originalFilename taskId targetFormat =
      parseName originalFilename ++ "-" ++ taskId ++ "." ++
        normalizeExtension targetFormat ∧
    ((jsToLower (stripLeadingDot targetFormat) = "markdown" ∨
        jsToLower (stripLeadingDot targetFormat) = "md") →
      normalizeExtension targetFormat = "md") ∧
    ((jsToLower (stripLeadingDot targetFormat) = "text" ∨
        jsToLower (stripLeadingDot targetFormat) = "txt" ∨
        jsToLower (stripLeadingDot targetFormat) = "plain") →
      normalizeExtension targetFormat = "txt") ∧
    (¬(jsToLower (stripLeadingDot targetFormat) = "markdown" ∨
        jsToLower (stripLeadingDot targetFormat) = "md") →
      ¬(jsToLower (stripLeadingDot targetFormat) = "text" ∨
          jsToLower (stripLeadingDot targetFormat) = "txt" ∨
          jsToLower (stripLeadingDot targetFormat) = "plain") →
      normalizeExtension targetFormat = jsToLower (stripLeadingDot targetFormat)) := by
  refine ⟨rfl, ?_, ?_, ?_⟩
  · intro h
    simp only [normalizeExtension]
    rw [if_pos h]
  · intro h
    have h1 : ¬(jsToLower (stripLeadingDot targetFormat) = "markdown" ∨
        jsToLower (stripLeadingDot targetFormat) = "md") := by
      rcases h with h | h | h <;> rw [h] <;> decide
    simp only [normalizeExtension]
    rw [if_neg h1, if_pos h]
  · intro h1 h2
    simp only [normalizeExtension]
    rw [if_neg h1, if_neg h2]

/-- C6 witness: target format "Markdown" yields extension md. -/
theorem buildOutputFilename_normalization_witness :
    buildOutputFilename "report.doc" "t1" "Markdown" = "report-t1.md" := by
  have h0 := (buildOutputFilename_normalization "report.doc" "t1" "Markdown").1
  have h1 := (buildOutputFilename_normalization "report.doc" "t1" "Markdown").2.1
    (by decide)
  rw [h0, h1]
  rfl

/-- C7 counterexample: for format "HTML" the code passes "html" to pandoc,
while the claim's normalization passes "HTML" through unchanged. -/
theorem normalizeFormat_case_counterexample :
    normalizeFormatForPandoc "HTML" = "html" ∧
    claimedNormalizeFormat "HTML" = "HTML" ∧
    ("html" : String) ≠ "HTML" :=
  ⟨rfl, rfl, by decide⟩

/-- C7 (amended): pandoc's --from and --to names are produced by applying,
independently to the source and the target format, the normalization that
trims, lower-cases, then maps markdown/md to markdown, text/txt/plain to
plain and htm to html, all other values passing through trimmed and
lower-cased. -/
theorem runPandoc_format_normalization (cfg : ServiceConfig) (env : Env) (task : Task)
    (outputPath sourcePath sourceFormat : String) :
    (runPandoc cfg env task outputPath sourcePath sourceFormat).2.head? =
      some (Event.spawnPandoc cfg.pandocPath
        ["--from", normalizeFormatForPandoc sourceFormat,
         "--to", normalizeFormatForPandoc task.targetFormat,
         sourcePath, "--output", outputPath]) ∧
    ∀ fmt : String,
      ((jsToLower (jsTrim fmt) = "markdown" ∨ jsToLower (jsTrim fmt) = "md") →
        normalizeFormatForPandoc fmt = "markdown") ∧
      ((jsToLower (jsTrim fmt) = "text" ∨ jsToLower (jsTrim fmt) = "txt" ∨
          jsToLower (jsTrim fmt) = "plain") →
        normalizeFormatForPandoc fmt = "plain") ∧
      (jsToLower (jsTrim fmt) = "htm" → normalizeFormatForPandoc fmt = "html") ∧
      (¬(jsToLower (jsTrim fmt) = "markdown" ∨ jsToLower (jsTrim fmt) = "md") →
        ¬(jsToLower (jsTrim fmt) = "text" ∨ jsToLower (jsTrim fmt) = "txt" ∨
            jsToLower (jsTrim fmt) = "plain") →
        ¬(jsToLower (jsTrim fmt) = "htm") →
        normalizeFormatForPandoc fmt = jsToLower (jsTrim fmt)) := by
  constructor
  · cases henv : env.pandocResult with
    | notFound => simp [runPandoc, henv]
    | spawnError m => simp [runPandoc, henv]
    | exited c st =>
        simp [runPandoc, henv]
        split_ifs <;> rfl
  · intro fmt
    refine ⟨?_, ?_, ?_, ?_⟩
    · intro h
      simp only [normalizeFormatForPandoc]
      rw [if_pos h]
    · intro h
      have h1 : ¬(jsToLower (jsTrim fmt) = "markdown" ∨ jsToLower (jsTrim fmt) = "md") := by
        rcases h with h | h | h <;> rw [h] <;> decide
      simp only [normalizeFormatForPandoc]
      rw [if_neg h1, if_pos h]
    · intro h
      have h1 : ¬(jsToLower (jsTrim fmt) = "markdown" ∨ jsToLower (jsTrim fmt) = "md") := by
        rw [h]; decide
      have h2 : ¬(jsToLower (jsTrim fmt) = "text" ∨ jsToLower (jsTrim fmt) = "txt" ∨
          jsToLower (jsTrim fmt) = "plain") := by
        rw [h]; decide
      simp only [normalizeFormatForPandoc]
      rw [if_neg h1, if_neg h2, if_pos h]
    · intro h1 h2 h3
      simp only [normalizeFormatForPandoc]
      rw [if_neg h1, if_neg h2, if_neg h3]

/-- C7 witness: format " HTM " normalizes to html. -/
theorem runPandoc_format_normalization_witness :
    normalizeFormatForPandoc " HTM " = "html" :=
  ((runPandoc_format_normalization sampleCfg sampleEnv samplePdfTask
      "o" "s" "x").2 " HTM ").2.2.1 (by decide)

/-- Eta for strings. -/
theorem string_mk_data (s : String) : String.mk s.data = s :=
  rfl

/-- One pipeline run performs exactly one setProcessing followed by exactly
one of attachResult (with the computed output path) or attachError. -/
theorem processTask_ops_shape (cfg : ServiceConfig) (env : Env) (task : Task) :
    (processTask cfg env task).1 =
      [StoreOp.opSetProcessing task.id,
       StoreOp.opAttachResult task.id
         (pathJoin cfg.outputDirectory
           (buildOutputFilename task.sourceFilename task.id task.targetFormat))] ∨
    ∃ e, (processTask cfg env task).1 =
      [StoreOp.opSetProcessing task.id, StoreOp.opAttachError task.id e] := by
  simp only [processTask]
  rcases h : runPipeline cfg env task
      (pathJoin cfg.outputDirectory
        (buildOutputFilename task.sourceFilename task.id task.targetFormat))
    with ⟨res, evs⟩
  cases res with
  | ok u => exact Or.inl rfl
  | error e => exact Or.inr ⟨e, rfl⟩

/-- The external actions of a run are exactly those of its pipeline body. -/
theorem processTask_events (cfg : ServiceConfig) (env : Env) (task : Task) :
    (processTask cfg env task).2 =
      (runPipeline cfg env task
        (pathJoin cfg.outputDirectory
          (buildOutputFilename task.sourceFilename task.id task.targetFormat))).2 := by
  simp only [processTask]
  rcases h : runPipeline cfg env task
      (pathJoin cfg.outputDirectory
        (buildOutputFilename task.sourceFilename task.id task.targetFormat))
    with ⟨res, evs⟩
  cases res <;> rfl

/-- C1: a task is created with status pending, one pipeline run calls
setProcessing exactly once and then exactly one of attachResult or
attachError, and both transitions performed follow the legal edges
pending to processing to completed or failed (so no transition leaves a
terminal state or skips processing). -/
theorem task_status_edges (cfg : ServiceConfig) (env : Env) (task : Task)
    (s : TaskStore) (p : CreateTaskPayload) (now : Nat) :
    (createTask s p now).1.status = TaskStatus.pending ∧
    ∃ term, (processTask cfg env task).1 = [StoreOp.opSetProcessing task.id, term] ∧
      ((∃ out, term = StoreOp.opAttachResult task.id out) ∨
        (∃ e, term = StoreOp.opAttachError task.id e)) ∧
      allowedEdge TaskStatus.pending (opStatus (StoreOp.opSetProcessing task.id)) = true ∧
      allowedEdge (opStatus (StoreOp.opSetProcessing task.id)) (opStatus term) = true := by
  refine ⟨rfl, ?_⟩
  rcases processTask_ops_shape cfg env task with h | ⟨e, h⟩
  · exact ⟨_, h, Or.inl ⟨_, rfl⟩, rfl, rfl⟩
  · exact ⟨_, h, Or.inr ⟨e, rfl⟩, rfl, rfl⟩

/-- C2: along the whole history of a created-then-processed task (every
count k of store calls applied), the record under the task's id satisfies
the coupling: outputPath set exactly when completed, error set exactly when
failed, neither set while pending or processing. -/
theorem task_fields_coupling (cfg : ServiceConfig) (env : Env)
    (s : TaskStore) (p : CreateTaskPayload) (now now2 : Nat) (k : Nat) :
    optTaskConsistent
      (applyOps now2 (createTask s p now).2
        ((processTask cfg env (createTask s p now).1).1.take k) p.id) := by
  rcases processTask_ops_shape cfg env (createTask s p now).1 with h | ⟨e, h⟩ <;>
    rw [h] <;>
    rcases k with _ | _ | k
  · simp [applyOps, createTask, storeSet, optTaskConsistent, taskConsistent]
  · simp [applyOps, applyOp, setProcessing, updateStatus, createTask, storeSet,
      mergeTask, mergeOpt, optTaskConsistent, taskConsistent]
  · simp [applyOps, applyOp, setProcessing, attachResult, attachError,
      updateStatus, createTask, storeSet, mergeTask, mergeOpt,
      optTaskConsistent, taskConsistent]
  · simp [applyOps, createTask, storeSet, optTaskConsistent, taskConsistent]
  · simp [applyOps, applyOp, setProcessing, updateStatus, createTask, storeSet,
      mergeTask, mergeOpt, optTaskConsistent, taskConsistent]
  · simp [applyOps, applyOp, setProcessing, attachResult, attachError,
      updateStatus, createTask, storeSet, mergeTask, mergeOpt,
      optTaskConsistent, taskConsistent]

/-- The empty trace spawns no converter. -/
theorem noConverterSpawn_nil : noConverterSpawn [] := by
  intro ev hev
  exact absurd hev (List.not_mem_nil ev)

/-- Appending traces preserves the absence of converter spawns. -/
theorem noConverterSpawn_append {l1 l2 : List Event}
    (h1 : noConverterSpawn l1) (h2 : noConverterSpawn l2) :
    noConverterSpawn (l1 ++ l2) := by
  intro ev hev
  rcases List.mem_append.mp hev with hm | hm
  · exact h1 ev hm
  · exact h2 ev hm

/-- Legacy normalization spawns at most the office converter: neither its
own actions nor its successful result's cleanup actions spawn the shortcut
or primary converter. -/
theorem legacy_no_converter_spawn (env : Env) (task : Task) :
    noConverterSpawn (prepareLegacyOfficeSource env task).2 ∧
    ∀ ps, (prepareLegacyOfficeSource env task).1 = Except.ok ps →
      noConverterSpawn ps.cleanupEvents := by
  rcases hm : getLegacyOfficeMapping task.sourceFormat with _ | ext
  · constructor <;>
      simp [prepareLegacyOfficeSource, hm, preparePassThroughSource, noConverterSpawn]
  · rcases hsp : env.sofficePath with _ | spath
    · constructor <;>
        simp [prepareLegacyOfficeSource, hm, hsp, preparePassThroughSource, noConverterSpawn]
    · by_cases hav : isSofficeAvailable env = false
      · constructor <;>
          simp [prepareLegacyOfficeSource, hm, hsp, hav, preparePassThroughSource,
            noConverterSpawn]
      · rcases ho : sofficeOutcome spath env.sofficeResult with e | u
        · constructor <;>
            simp [prepareLegacyOfficeSource, hm, hsp, hav, ho, noConverterSpawn,
              isMainConverterSpawn]
        · rcases hf : env.convertedFiles.find?
              (fun f => jsEndsWith (jsToLower f) ("." ++ ext)) with _ | cf
          · constructor <;>
              simp [prepareLegacyOfficeSource, hm, hsp, hav, ho, hf, noConverterSpawn,
                isMainConverterSpawn]
          · constructor <;>
              simp [prepareLegacyOfficeSource, hm, hsp, hav, ho, hf, noConverterSpawn,
                isMainConverterSpawn]

/-- The simulation path never spawns a converter. -/
theorem simulate_no_converter_spawn (env : Env) (a b : String) :
    noConverterSpawn (simulateConversion env a b).2 := by
  unfold simulateConversion
  by_cases hc : env.copySucceeds = true
  · simp [hc, noConverterSpawn, isMainConverterSpawn]
  · rcases hf : env.fallbackRead with e | c <;>
      simp [hc, hf, noConverterSpawn, isMainConverterSpawn]

/-- Under test mode the whole pipeline body spawns neither the shortcut nor
the primary converter. -/
theorem runPipeline_testmode_no_spawn (cfg : ServiceConfig) (env : Env) (task : Task)
    (outputPath : String) (h : env.testMode = true) :
    noConverterSpawn (runPipeline cfg env task outputPath).2 := by
  have hleg := legacy_no_converter_spawn env task
  rcases hL : prepareLegacyOfficeSource env task with ⟨res, evs⟩
  rw [hL] at hleg
  cases res with
  | error e =>
      simp only [runPipeline, hL]
      exact hleg.1
  | ok legacyPrep =>
      simp only [runPipeline, hL, h, resolveStrategy, if_true, prepareSource,
        runStrategyStage, preparePassThroughSource, List.append_assoc,
        List.nil_append, List.append_nil]
      intro ev hev
      simp only [List.mem_append] at hev
      rcases hev with hev | hev | hev
      · exact hleg.1 ev hev
      · exact simulate_no_converter_spawn env _ outputPath ev hev
      · exact hleg.2 legacyPrep rfl ev hev

/-- C4 counterexample: in test mode, a doc task with a configured and
present office converter still spawns that external executable during
legacy-format normalization. -/
theorem testmode_office_spawn_counterexample :
    sampleEnvTest.testMode = true ∧
    Event.spawnSoffice "soffice"
        ["--headless", "--convert-to", "docx", "up/in.doc", "--outdir", "out/soffice-x"]
      ∈ (processTask sampleCfg sampleEnvTest sampleDocTask).2 :=
  ⟨rfl, by decide⟩

/-- C4 (amended): in test mode the resolver picks the simulation strategy
for every task and the pipeline spawns neither the shortcut converter nor
the primary converter; the office converter may still be spawned during
legacy-format normalization. -/
theorem testmode_no_primary_spawn (cfg : ServiceConfig) (env : Env) (task : Task)
    (h : env.testMode = true) :
    (∀ t2 : Task, resolveStrategy env.testMode t2 = ConversionStrategy.simulation) ∧
    noConverterSpawn (processTask cfg env task).2 := by
  constructor
  · intro t2
    rw [h]
    rfl
  · rw [processTask_events]
    exact runPipeline_testmode_no_spawn cfg env task _ h

/-- C4 witness: the amended statement at the concrete test-mode run. -/
theorem testmode_no_primary_spawn_witness :
    noConverterSpawn (processTask sampleCfg sampleEnvTest sampleDocTask).2 :=
  (testmode_no_primary_spawn sampleCfg sampleEnvTest sampleDocTask rfl).2

/-- Lower-casing fixes the whitespace characters. -/
theorem isJsWs_toLower_self (c : Char) (hc : isJsWs c = true) :
    Char.toLower c = c := by
  simp only [isJsWs, Bool.or_eq_true, decide_eq_true_eq] at hc
  rcases hc with ((((h | h) | h) | h) | h) | h <;> rw [h] <;> decide

/-- A string lower-casing to pdf has exactly three characters, whose
lower-casings are p, d, f. -/
theorem jsToLower_pdf_shape (s : String) (h : jsToLower s = "pdf") :
    ∃ c0 c1 c2, s.data = [c0, c1, c2] ∧ Char.toLower c0 = 'p' ∧
      Char.toLower c1 = 'd' ∧ Char.toLower c2 = 'f' := by
  have hd : s.data.map Char.toLower = ['p', 'd', 'f'] := congrArg String.data h
  rcases hs : s.data with _ | ⟨c0, _ | ⟨c1, _ | ⟨c2, _ | ⟨c3, tl⟩⟩⟩⟩ <;>
    rw [hs] at hd <;> simp at hd
  exact ⟨c0, c1, c2, rfl, hd.1, hd.2.1, hd.2.2⟩

/-- A string lower-casing to pdf is already trimmed. -/
theorem pdf_trim_eq (s : String) (h : jsToLower s = "pdf") : jsTrim s = s := by
  obtain ⟨c0, c1, c2, hd, h0, h1, h2⟩ := jsToLower_pdf_shape s h
  have w0 : isJsWs c0 = false := by
    cases hb : isJsWs c0 with
    | false => rfl
    | true =>
        have hfix := isJsWs_toLower_self c0 hb
        rw [hfix] at h0
        rw [h0] at hb
        exact absurd hb (by decide)
  have w2 : isJsWs c2 = false := by
    cases hb : isJsWs c2 with
    | false => rfl
    | true =>
        have hfix := isJsWs_toLower_self c2 hb
        rw [hfix] at h2
        rw [h2] at hb
        exact absurd hb (by decide)
  unfold jsTrim
  rw [hd]
  simp [List.dropWhile_cons, w0, w2]
  rw [← hd]

/-- A format lower-casing to pdf is not in the legacy office set. -/
theorem pdf_not_legacy (s : String) (h : jsToLower s = "pdf") :
    getLegacyOfficeMapping s = none := by
  simp only [getLegacyOfficeMapping]
  rw [pdf_trim_eq s h, h]
  decide

/-- A non-zero exit of the office converter yields an error outcome. -/
theorem sofficeOutcome_nonzero_error (spath : String) (c : Int) (st : String)
    (hc : c ≠ 0) :
    ∃ e, sofficeOutcome spath (ProcResult.exited c st) = Except.error e := by
  simp only [sofficeOutcome]
  rw [if_neg hc]
  by_cases hst : jsTrim st ≠ ""
  · exact ⟨jsTrim st, by rw [if_pos hst]⟩
  · exact ⟨"LibreOffice exited with code " ++ toString c, by rw [if_neg hst]⟩

/-- A failed pipeline body makes the run record exactly that error. -/
theorem processTask_error_ops (cfg : ServiceConfig) (env : Env) (task : Task)
    (e : String) (evs : List Event)
    (hrp : runPipeline cfg env task
        (pathJoin cfg.outputDirectory
          (buildOutputFilename task.sourceFilename task.id task.targetFormat)) =
      (Except.error e, evs)) :
    (processTask cfg env task).1 =
      [StoreOp.opSetProcessing task.id, StoreOp.opAttachError task.id e] := by
  simp only [processTask, hrp]

/-- A failed legacy normalization fails the whole pipeline body with the
same error and the same trace. -/
theorem runPipeline_legacy_error (cfg : ServiceConfig) (env : Env) (task : Task)
    (outputPath : String) (e : String) (evs : List Event)
    (hleg : prepareLegacyOfficeSource env task = (Except.error e, evs)) :
    runPipeline cfg env task outputPath = (Except.error e, evs) := by
  simp only [runPipeline, hleg]

/-- C8: when legacy normalization actually runs (legacy format, converter
configured, available) and the converter exits non-zero or no file with the
expected extension appears, the normalizer returns an error whose message is
the tool's own, its final preparation action is the removal of the scratch
directory (before the error propagates, and not masking it), and the
orchestrator then records exactly that error on the task. -/
theorem legacy_failure_cleanup (cfg : ServiceConfig) (env : Env) (task : Task)
    (ext spath : String)
    (hm : getLegacyOfficeMapping task.sourceFormat = some ext)
    (hsp : env.sofficePath = some spath)
    (hav : isSofficeAvailable env = true)
    (hfail : (∃ c st, env.sofficeResult = ProcResult.exited c st ∧ c ≠ 0) ∨
      env.convertedFiles.find? (fun f => jsEndsWith (jsToLower f) ("." ++ ext)) = none) :
    ∃ e, prepareLegacyOfficeSource env task =
        (Except.error e,
         [Event.mkScratch env.scratchDir,
          Event.spawnSoffice spath ["--headless", "--convert-to", ext,
            task.sourcePath, "--outdir", env.scratchDir],
          Event.removeDir env.scratchDir]) ∧
      (processTask cfg env task).1 =
        [StoreOp.opSetProcessing task.id, StoreOp.opAttachError task.id e] := by
  have havne : ¬ (isSofficeAvailable env = false) := by
    rw [hav]
    simp
  rcases ho : sofficeOutcome spath env.sofficeResult with e0 | u
  · have hprep : prepareLegacyOfficeSource env task =
        (Except.error e0,
         [Event.mkScratch env.scratchDir,
          Event.spawnSoffice spath ["--headless", "--convert-to", ext,
            task.sourcePath, "--outdir", env.scratchDir],
          Event.removeDir env.scratchDir]) := by
      simp [prepareLegacyOfficeSource, hm, hsp, havne, ho]
    exact ⟨e0, hprep, processTask_error_ops cfg env task e0 _
      (runPipeline_legacy_error cfg env task _ e0 _ hprep)⟩
  · rcases hfail with ⟨c, st, hres, hc⟩ | hfind
    · obtain ⟨e1, he1⟩ := sofficeOutcome_nonzero_error spath c st hc
      rw [hres, he1] at ho
      exact absurd ho (by simp)
    · have hprep : prepareLegacyOfficeSource env task =
          (Except.error ("LibreOffice conversion completed without producing a \"" ++
             ext ++ "\" output."),
           [Event.mkScratch env.scratchDir,
            Event.spawnSoffice spath ["--headless", "--convert-to", ext,
              task.sourcePath, "--outdir", env.scratchDir],
            Event.removeDir env.scratchDir]) := by
        simp [prepareLegacyOfficeSource, hm, hsp, havne, ho, hfind]
      exact ⟨_, hprep, processTask_error_ops cfg env task _ _
        (runPipeline_legacy_error cfg env task _ _ _ hprep)⟩

/-- The primary-converter invoker emits its spawn first, followed at most
by the output write on success. -/
theorem runPandoc_events (cfg : ServiceConfig) (env : Env) (task : Task)
    (outputPath sourcePath sourceFormat : String) :
    (runPandoc cfg env task outputPath sourcePath sourceFormat).2 =
      [Event.spawnPandoc cfg.pandocPath
        ["--from", normalizeFormatForPandoc sourceFormat,
         "--to", normalizeFormatForPandoc task.targetFormat,
         sourcePath, "--output", outputPath]] ∨
    (runPandoc cfg env task outputPath sourcePath sourceFormat).2 =
      [Event.spawnPandoc cfg.pandocPath
        ["--from", normalizeFormatForPandoc sourceFormat,
         "--to", normalizeFormatForPandoc task.targetFormat,
         sourcePath, "--output", outputPath],
       Event.writeFile outputPath] := by
  simp only [runPandoc]
  rcases env.pandocResult with _ | m | ⟨c, st⟩
  · exact Or.inl rfl
  · exact Or.inl rfl
  · by_cases hc : c = 0
    · refine Or.inr ?_
      simp [hc]
    · by_cases hst : st ≠ ""
      · refine Or.inl ?_
        simp [hc, hst]
      · refine Or.inl ?_
        simp [hc, hst]

/-- A trace ending in the deletion of a path leaves that path
non-existent. -/
theorem existsAfter_append_delete (p : String) (l : List Event) :
    existsAfter p (l ++ [Event.deleteFile p]) = false := by
  unfold existsAfter
  rw [List.foldl_append]
  simp

/-- C5: for a pdf-format task outside test mode, every primary-converter
spawn is preceded by the write of the intermediate markdown file (named
from the original filename's stem and the task id, in the output
directory), the converter is invoked with effective source format markdown
on that intermediate file, and the intermediate file does not exist once
the run's trace is complete, on success and failure paths alike; for every
non-pdf source format the preparer is a pass-through. -/
theorem pdf_intermediate_lifecycle (cfg : ServiceConfig) (env : Env) (task : Task)
    (h1 : env.testMode = false) (h2 : jsToLower task.sourceFormat = "pdf") :
    (∀ l r exe args,
      (processTask cfg env task).2 = l ++ Event.spawnPandoc exe args :: r →
      Event.writeFile (buildIntermediateMarkdownPath cfg.outputDirectory
        task.sourceFilename task.id) ∈ l) ∧
    (∀ exe args, Event.spawnPandoc exe args ∈ (processTask cfg env task).2 →
      exe = cfg.pandocPath ∧
      args = ["--from", "markdown",
              "--to", normalizeFormatForPandoc task.targetFormat,
              buildIntermediateMarkdownPath cfg.outputDirectory task.sourceFilename task.id,
              "--output",
              pathJoin cfg.outputDirectory
                (buildOutputFilename task.sourceFilename task.id task.targetFormat)]) ∧
    existsAfter (buildIntermediateMarkdownPath cfg.outputDirectory task.sourceFilename task.id)
      (processTask cfg env task).2 = false ∧
    (∀ t2 : Task, jsToLower t2.sourceFormat ≠ "pdf" →
      prepareSourceForPandoc env cfg.outputDirectory t2 =
        (Except.ok (preparePassThroughSource t2), [])) := by
  have hnl := pdf_not_legacy task.sourceFormat h2
  have hleg : prepareLegacyOfficeSource env task =
      (Except.ok (preparePassThroughSource task), []) := by
    simp [prepareLegacyOfficeSource, hnl]
  have heff : (Task.mk task.id task.sourcePath task.sourceRelativePath task.sourceFormat
      task.targetFormat task.sourceFilename task.status task.createdAt task.updatedAt
      task.outputPath task.error) = task := rfl
  have hpass : ∀ t2 : Task, jsToLower t2.sourceFormat ≠ "pdf" →
      prepareSourceForPandoc env cfg.outputDirectory t2 =
        (Except.ok (preparePassThroughSource t2), []) := by
    intro t2 ht2
    simp [prepareSourceForPandoc, ht2]
  rcases hpdf : env.pdfExtract with e | content
  · have htr : (processTask cfg env task).2 = [] := by
      rw [processTask_events]
      simp [runPipeline, hleg, resolveStrategy, h1, shouldUseMarkitdown,
        prepareSource, prepareSourceForPandoc, preparePassThroughSource, h2, hpdf]
    refine ⟨?_, ?_, ?_, hpass⟩
    · intro l r exe args hsplit
      rw [htr] at hsplit
      exact absurd hsplit.symm (by simp)
    · intro exe args hmem
      rw [htr] at hmem
      exact absurd hmem (List.not_mem_nil _)
    · rw [htr]
      rfl
  · have hps : prepareSourceForPandoc env cfg.outputDirectory task =
        (Except.ok
          { sourcePath := buildIntermediateMarkdownPath cfg.outputDirectory
              task.sourceFilename task.id
            sourceFormat := "markdown"
            cleanupEvents := [Event.deleteFile (buildIntermediateMarkdownPath
              cfg.outputDirectory task.sourceFilename task.id)] },
         [Event.writeFile (buildIntermediateMarkdownPath cfg.outputDirectory
            task.sourceFilename task.id)]) := by
      simp [prepareSourceForPandoc, h2, hpdf]
    have htr : (processTask cfg env task).2 =
        Event.writeFile (buildIntermediateMarkdownPath cfg.outputDirectory
          task.sourceFilename task.id) ::
        ((runPandoc cfg env task
            (pathJoin cfg.outputDirectory (buildOutputFilename task.sourceFilename
              task.id task.targetFormat))
            (buildIntermediateMarkdownPath cfg.outputDirectory task.sourceFilename task.id)
            "markdown").2 ++
          [Event.deleteFile (buildIntermediateMarkdownPath cfg.outputDirectory
            task.sourceFilename task.id)]) := by
      rw [processTask_events]
      simp [runPipeline, hleg, resolveStrategy, h1, shouldUseMarkitdown,
        prepareSource, preparePassThroughSource, heff, hps, runStrategyStage]
    refine ⟨?_, ?_, ?_, hpass⟩
    · intro l r exe args hsplit
      rw [htr] at hsplit
      cases l with
      | nil =>
          rw [List.nil_append] at hsplit
          injection hsplit with hhead htail
          exact absurd hhead (by simp)
      | cons a l2 =>
          rw [List.cons_append] at hsplit
          injection hsplit with hhead htail
          rw [← hhead]
          exact List.mem_cons_self _ _
    · intro exe args hmem
      rw [htr] at hmem
      rcases List.mem_cons.mp hmem with he | hmem2
      · exact absurd he (by simp)
      · rcases List.mem_append.mp hmem2 with hp | hdel
        · rcases runPandoc_events cfg env task
              (pathJoin cfg.outputDirectory (buildOutputFilename task.sourceFilename
                task.id task.targetFormat))
              (buildIntermediateMarkdownPath cfg.outputDirectory task.sourceFilename task.id)
              "markdown" with hE | hE <;> rw [hE] at hp
          · have he2 := List.mem_singleton.mp hp
            simp only [Event.spawnPandoc.injEq] at he2
            exact ⟨he2.1, he2.2⟩
          · rcases List.mem_cons.mp hp with he2 | he3
            · simp only [Event.spawnPandoc.injEq] at he2
              exact ⟨he2.1, he2.2⟩
            · have he4 := List.mem_singleton.mp he3
              exact absurd he4 (by simp)
        · have he5 := List.mem_singleton.mp hdel
          exact absurd he5 (by simp)
    · rw [htr, ← List.cons_append]
      exact existsAfter_append_delete _ _

/-- C5 witness: the successful pdf run leaves no intermediate file. -/
theorem pdf_intermediate_lifecycle_witness :
    existsAfter (buildIntermediateMarkdownPath "out" "in.pdf" "tid")
      (processTask sampleCfg sampleEnv samplePdfTask).2 = false :=
  (pdf_intermediate_lifecycle sampleCfg sampleEnv samplePdfTask rfl rfl).2.2.1

/-- C8 witness: a doc task whose office conversion exits non-zero. -/
theorem legacy_failure_cleanup_witness :
    ∃ e, prepareLegacyOfficeSource sampleEnvSofficeFail sampleDocTask =
        (Except.error e,
         [Event.mkScratch "out/soffice-x",
          Event.spawnSoffice "soffice" ["--headless", "--convert-to", "docx",
            "up/in.doc", "--outdir", "out/soffice-x"],
          Event.removeDir "out/soffice-x"]) ∧
      (processTask sampleCfg sampleEnvSofficeFail sampleDocTask).1 =
        [StoreOp.opSetProcessing "tid", StoreOp.opAttachError "tid" e] :=
  legacy_failure_cleanup sampleCfg sampleEnvSofficeFail sampleDocTask "docx" "soffice"
    (by decide) rfl rfl (Or.inl ⟨1, "boom", rfl, by decide⟩)

end FileConverter
